import Mathlib

/-
Verification of the client-side data cache and staged-loading/merge subsystem
of the wolfee-analytic dashboard client.

The definitions below are a shallow embedding of the JavaScript source:
  - the record/session-store data model (symbol, price, optional indicators,
    sessionStorage keys),
  - the merge step of fetchFullBatchInBackground (stage-2 background load),
  - the failure behaviour of fetchFullBatchInBackground and fetchFullBatch,
  - the cache-TTL decision inside init,
  - refreshMarket (cache clearing),
  - applyFilters (region partition, numeric range defaults, sort policy),
  - togglePortfolioItem.

JavaScript numbers are modelled as rationals; the claims involve only order
comparisons, never rounding, so any linear order is adequate. A JavaScript
undefined indicator is modelled as Option.none, and the semantics of
comparing undefined with a number (always false, via NaN) is made explicit
in each check. The parseFloat(x) || d defaulting idiom is modelled by jsOr
and jsOrInf: an absent or unparsable input, and also a parsed value of 0
(falsy), fall back to the default.
-/

/-- A single tradable instrument snapshot, as consumed by the filter, merge
and portfolio code: identity key symbol, display name, last price, percent
change, and the optional indicators the filter reads (rsi, volume). -/
structure Stock where
  symbol : String
  name : String
  price : ℚ
  change_pct : ℚ
  rsi : Option ℚ
  volume : Option ℚ
deriving DecidableEq, Repr

/-- Region classifier: a stock is global iff its symbol does not carry the
.IS domestic-market suffix, mirroring !stock.symbol.endsWith(".IS"). -/
def isStockGlobal (s : Stock) : Bool :=
  !(".IS".data.isSuffixOf s.symbol.data)

/-- The payload of a market-data response: the stocks array (data.stocks). -/
structure MarketData where
  stocks : List Stock
deriving DecidableEq, Repr

/-- The session-scoped key/value store: one field per fixed sessionStorage
key used by the app (wolfee_market_data, wolfee_cache_time,
wolfee_ai_insight, wolfee_opportunities, wolfee_portfolio). A none field
means the key is absent. -/
structure SessionStore where
  marketData : Option MarketData
  cacheTime : Option Int
  aiInsight : Option String
  opportunities : Option String
  portfolio : Option (List Stock)
deriving DecidableEq, Repr

/-- The pipeline-visible mutable state: the session store plus the
in-memory working set window.allStocks. -/
structure AppState where
  store : SessionStore
  allStocks : List Stock
deriving DecidableEq, Repr

/-- The merge step of fetchFullBatchInBackground: incoming records whose
symbol is not yet in the current working set are kept (in arrival order)
as newStocks and appended; records with an already-present symbol are
dropped. Returns (updated working set, delta). -/
def mergeStocks (current incoming : List Stock) : List Stock × List Stock :=
  let newStocks :=
    incoming.filter (fun n => !(current.any (fun e => e.symbol == n.symbol)))
  (current ++ newStocks, newStocks)

/-- Folding a sequence of snapshots into the working set, starting from the
empty set, each step being the merge of fetchFullBatchInBackground. -/
def mergeAll (snaps : List (List Stock)) : List Stock :=
  snaps.foldl (fun ws s => (mergeStocks ws s).1) []

/-- Outcome of the full-stage fetch: the request can reject (network
failure), return a non-success status, deliver a malformed body (json
throws), or succeed with parsed data. -/
inductive FetchOutcome where
  | rejected
  | httpError (status : Nat)
  | malformed
  | ok (data : MarketData)
deriving DecidableEq, Repr

/-- True for every outcome other than a successful parsed response. -/
def FetchOutcome.isFailure : FetchOutcome → Bool
  | .ok _ => false
  | _ => true

/-- Stage 2 of part_002: on success, write the snapshot and timestamp to the
session cache, then append the genuinely new records to the working set
(only when the delta is non-empty does the assignment happen). On any
failure the function returns before any write: state is untouched. -/
def fetchFullBatchInBackground (o : FetchOutcome) (now : Int) (st : AppState) :
    AppState :=
  match o with
  | .ok data =>
    let store1 := { st.store with marketData := some data, cacheTime := some now }
    let merged := mergeStocks st.allStocks data.stocks
    if 0 < merged.2.length then { store := store1, allStocks := merged.1 }
    else { store := store1, allStocks := st.allStocks }
  | _ => st

/-- Stage 2 of part_003: on success with a non-empty stock list, write the
snapshot and timestamp and replace the working set wholesale via
processData; on failure (throw caught by the catch) nothing is written. -/
def fetchFullBatch (o : FetchOutcome) (now : Int) (st : AppState) : AppState :=
  match o with
  | .ok data =>
    if 0 < data.stocks.length then
      { store := { st.store with marketData := some data, cacheTime := some now },
        allStocks := data.stocks }
    else st
  | _ => st

/-- Result of the init cache check: either both network stages are skipped
and the working set is seeded from the cached snapshot (processData on the
parsed blob), or the two-stage pipeline runs. -/
inductive InitResult where
  | fromCache (stocks : List Stock)
  | pipeline
deriving DecidableEq, Repr

/-- The cache decision at the top of init: the cached blob and timestamp
must both be present and now - cacheTime must be strictly below the
300000 ms TTL; otherwise the pipeline runs. -/
def init (st : SessionStore) (now : Int) : InitResult :=
  match st.marketData, st.cacheTime with
  | some d, some t =>
    if now - t < 300000 then .fromCache d.stocks else .pipeline
  | _, _ => .pipeline

/-- The explicit refresh: removes the market-data blob, the AI-insight text
and the opportunities list from the session store, exactly the three
sessionStorage.removeItem calls of refreshMarket. -/
def refreshMarket (st : SessionStore) : SessionStore :=
  { st with marketData := none, aiInsight := none, opportunities := none }

/-- The seven numeric filter inputs of applyFilters, each as the parseFloat
result of the corresponding text field: none models an absent field or an
unparsable value (NaN). -/
structure FilterInputs where
  priceMin : Option ℚ
  priceMax : Option ℚ
  rsiMin : Option ℚ
  rsiMax : Option ℚ
  changeMin : Option ℚ
  changeMax : Option ℚ
  volMin : Option ℚ
deriving DecidableEq, Repr

/-- The JavaScript idiom parseFloat(x) || d with a finite default d: NaN is
falsy, and so is a parsed 0, so both fall back to d. -/
def jsOr (v : Option ℚ) (d : ℚ) : ℚ :=
  match v with
  | some x => if x = 0 then d else x
  | none => d

/-- The JavaScript idiom parseFloat(x) || Infinity (or -Infinity): the
result none stands for the infinite default, reached on NaN and on a
parsed 0. -/
def jsOrInf (v : Option ℚ) : Option ℚ :=
  match v with
  | some x => if x = 0 then none else some x
  | none => none

/-- Comparison a < m where m = -Infinity when none: always false then. -/
def ltBound (a : ℚ) (m : Option ℚ) : Bool :=
  match m with
  | some x => decide (a < x)
  | none => false

/-- Comparison a > m where m = +Infinity when none: always false then. -/
def gtBound (a : ℚ) (m : Option ℚ) : Bool :=
  match m with
  | some x => decide (a > x)
  | none => false

/-- The value phase of applyFilters on one stock. Each early return-false of
the source becomes one negated failure conjunct. The rsi and volume checks
make explicit that comparing an undefined JavaScript field with a number is
false: an absent indicator can never fail a bound. Defaults as in the
source: priceMin 0, priceMax Infinity, rsiMin 0, rsiMax 100,
changeMin -Infinity, changeMax Infinity, volMin 0. -/
def passesValues (inp : FilterInputs) (s : Stock) : Bool :=
  let priceMin := jsOr inp.priceMin 0
  let priceMax := jsOrInf inp.priceMax
  let rsiMin := jsOr inp.rsiMin 0
  let rsiMax := jsOr inp.rsiMax 100
  let changeMin := jsOrInf inp.changeMin
  let changeMax := jsOrInf inp.changeMax
  let volMin := jsOr inp.volMin 0
  !(decide (s.price < priceMin) || gtBound s.price priceMax)
  && !(match s.rsi with
       | some r => decide (r < rsiMin) || decide (r > rsiMax)
       | none => false)
  && !(ltBound s.change_pct changeMin || gtBound s.change_pct changeMax)
  && !(match s.volume with
       | some v => decide (v < volMin)
       | none => false)

/-- The region predicate of applyFilters: global mode keeps global stocks,
domestic (TR) mode keeps stocks with the .IS suffix. -/
def regionPass (isGlobalMode : Bool) (s : Stock) : Bool :=
  if isGlobalMode then isStockGlobal s else !(isStockGlobal s)

/-- applyFilters: filter by region, then by the numeric ranges, then sort
the global partition ascending by symbol (localeCompare); the domestic
partition keeps the server order. -/
def applyFilters (allStocks : List Stock) (isGlobalMode : Bool)
    (inp : FilterInputs) : List Stock :=
  let byRegion := allStocks.filter (regionPass isGlobalMode)
  let byValues := byRegion.filter (passesValues inp)
  if isGlobalMode then
    List.insertionSort (fun a b => a.symbol ≤ b.symbol) byValues
  else byValues

/-- All seven filter fields empty: every bound is at its default. -/
def emptyInputs : FilterInputs := ⟨none, none, none, none, none, none, none⟩

/-- The record-set conditions that the applyFilters defaults impose even
with every input empty: price not below the default priceMin 0, rsi (when
present) within the default [0, 100] window, volume (when present) not
below the default volMin 0. -/
def passesDefaults (s : Stock) : Bool :=
  decide (0 ≤ s.price)
  && (match s.rsi with
      | some r => decide (0 ≤ r) && decide (r ≤ 100)
      | none => true)
  && (match s.volume with
      | some v => decide (0 ≤ v)
      | none => true)

/-- togglePortfolioItem: resolve the current symbol against the in-memory
working set; on resolution failure (no current symbol, or the symbol is
not in allStocks) do nothing; otherwise remove the first portfolio entry
with that symbol (findIndex plus splice) if one exists, else append the
resolved record. -/
def togglePortfolioItem (allStocks : List Stock) (currentSymbol : Option String)
    (portfolio : List Stock) : List Stock :=
  match currentSymbol with
  | none => portfolio
  | some sym =>
    match allStocks.find? (fun s => s.symbol == sym) with
    | none => portfolio
    | some stock =>
      match portfolio.findIdx? (fun s => s.symbol == sym) with
      | some i => portfolio.eraseIdx i
      | none => portfolio ++ [stock]

/-- Quick-stage record of the spec scenario: symbol AAA at price 10. -/
def recAAA10 : Stock := ⟨"AAA", "AAA Corp", 10, 0, none, none⟩

/-- Full-stage update of the spec scenario: symbol AAA at price 11. -/
def recAAA11 : Stock := ⟨"AAA", "AAA Corp", 11, 0, none, none⟩

/-- Full-stage newcomer of the spec scenario: symbol BBB at price 5. -/
def recBBB5 : Stock := ⟨"BBB", "BBB Corp", 5, 0, none, none⟩

/-- Claim C1, counterexample: in the spec scenario (quick stage AAA at 10,
full stage AAA at 11 and BBB at 5) the working set after the merge keeps
the OLD record for AAA (price 10); the incoming AAA record is dropped, not
substituted, so the working set claimed by the spec, with AAA at price 11
in first position, is not produced. The delta is [BBB] as claimed. -/
theorem merge_scenario_keeps_old_price :
    mergeStocks [recAAA10] [recAAA11, recBBB5] = ([recAAA10, recBBB5], [recBBB5])
    ∧ mergeStocks [recAAA10] [recAAA11, recBBB5] ≠ ([recAAA11, recBBB5], [recBBB5]) := by
  constructor
  · decide
  · decide

/-- Claim C1, amended: for every merge of an incoming snapshot into the
working set, an incoming record whose symbol is already present is dropped
(the existing entry is kept unchanged, in place, and is not part of the
delta); an incoming record with a not-yet-seen symbol is part of the delta;
the working set is the old one with the delta appended in arrival order
(so existing entries keep their positions); and on the spec scenario the
result is working set [AAA at 10, BBB at 5] with delta [BBB at 5]. -/
theorem merge_appends_new_keeps_existing (existing incoming : List Stock) :
    (mergeStocks existing incoming).1
      = existing ++ (mergeStocks existing incoming).2
    ∧ ((mergeStocks existing incoming).1.take existing.length = existing)
    ∧ (∀ n ∈ incoming, (∃ e ∈ existing, e.symbol = n.symbol) →
        n ∉ (mergeStocks existing incoming).2)
    ∧ (∀ n ∈ incoming, (∀ e ∈ existing, e.symbol ≠ n.symbol) →
        n ∈ (mergeStocks existing incoming).2)
    ∧ mergeStocks [recAAA10] [recAAA11, recBBB5]
        = ([recAAA10, recBBB5], [recBBB5]) := by
  refine ⟨rfl, ?_, ?_, ?_, by decide⟩
  · simp [mergeStocks]
  · intro n hn he hmem
    obtain ⟨e, hemem, hesym⟩ := he
    have := List.of_mem_filter hmem
    simp only [Bool.not_eq_true', List.any_eq_false] at this
    exact absurd (by simp [hesym]) (this e hemem)
  · intro n hn hnone
    refine List.mem_filter.mpr ⟨hn, ?_⟩
    simp only [Bool.not_eq_true', List.any_eq_false]
    intro e hemem
    simp [hnone e hemem]

/-- Claim C1, witness for the amended theorem at the spec scenario. -/
theorem merge_appends_new_keeps_existing_witness :
    (mergeStocks [recAAA10] [recAAA11, recBBB5]).1
      = [recAAA10] ++ (mergeStocks [recAAA10] [recAAA11, recBBB5]).2
    ∧ recBBB5 ∈ (mergeStocks [recAAA10] [recAAA11, recBBB5]).2 :=
  ⟨(merge_appends_new_keeps_existing [recAAA10] [recAAA11, recBBB5]).1,
   (merge_appends_new_keeps_existing [recAAA10] [recAAA11, recBBB5]).2.2.2.1
     recBBB5 (by decide) (by decide)⟩

/-- Claim C2: when the full-stage fetch fails in any of the three ways
(request rejected, non-success status, malformed body), both stage-2
implementations leave the whole application state (cache blob, cache
timestamp, working set) exactly as the quick stage wrote it. -/
theorem fullStage_failure_leaves_state_unchanged (o : FetchOutcome) (now : Int)
    (st : AppState) (h : o.isFailure = true) :
    fetchFullBatchInBackground o now st = st ∧ fetchFullBatch o now st = st := by
  cases o with
  | ok data => simp [FetchOutcome.isFailure] at h
  | rejected => exact ⟨rfl, rfl⟩
  | httpError status => exact ⟨rfl, rfl⟩
  | malformed => exact ⟨rfl, rfl⟩

/-- Claim C2, witness: a rejected full-stage request leaves a concrete
quick-stage state untouched. -/
theorem fullStage_failure_leaves_state_unchanged_witness :
    fetchFullBatchInBackground .rejected 7
        ⟨⟨some ⟨[recAAA10]⟩, some 3, none, none, none⟩, [recAAA10]⟩
      = ⟨⟨some ⟨[recAAA10]⟩, some 3, none, none, none⟩, [recAAA10]⟩
    ∧ fetchFullBatch .rejected 7
        ⟨⟨some ⟨[recAAA10]⟩, some 3, none, none, none⟩, [recAAA10]⟩
      = ⟨⟨some ⟨[recAAA10]⟩, some 3, none, none, none⟩, [recAAA10]⟩ :=
  fullStage_failure_leaves_state_unchanged .rejected 7
    ⟨⟨some ⟨[recAAA10]⟩, some 3, none, none, none⟩, [recAAA10]⟩ (by decide)

/-- Claim C4: with both cache fields present, init seeds the working set
from the cached snapshot, skipping the network stages, exactly when
now - writeTime is strictly below the 300000 ms TTL; at the boundary and
beyond it runs the full two-stage pipeline. -/
theorem cache_ttl_boundary (st : SessionStore) (d : MarketData) (t0 now : Int)
    (h1 : st.marketData = some d) (h2 : st.cacheTime = some t0) :
    (init st now = .fromCache d.stocks ↔ now - t0 < 300000)
    ∧ (300000 ≤ now - t0 → init st now = .pipeline) := by
  constructor
  · constructor
    · intro h
      by_contra hge
      simp [init, h1, h2, if_neg hge] at h
    · intro hlt
      simp [init, h1, h2, if_pos hlt]
  · intro hge
    have : ¬(now - t0 < 300000) := not_lt.mpr hge
    simp [init, h1, h2, if_neg this]

/-- Claim C4, witness: a snapshot written at time 0 is served from cache at
time 299999 and forces the pipeline at exactly 300000. -/
theorem cache_ttl_boundary_witness :
    (init ⟨some ⟨[recAAA10]⟩, some 0, none, none, none⟩ 299999
        = .fromCache [recAAA10] ↔ (299999 : Int) - 0 < 300000)
    ∧ ((300000 : Int) ≤ 300000 - 0 →
        init ⟨some ⟨[recAAA10]⟩, some 0, none, none, none⟩ 300000 = .pipeline) :=
  ⟨(cache_ttl_boundary ⟨some ⟨[recAAA10]⟩, some 0, none, none, none⟩
      ⟨[recAAA10]⟩ 0 299999 rfl rfl).1,
   (cache_ttl_boundary ⟨some ⟨[recAAA10]⟩, some 0, none, none, none⟩
      ⟨[recAAA10]⟩ 0 300000 rfl rfl).2⟩

/-- Claim C5: the merge is idempotent. Re-merging the snapshot A into the
working set already produced by merging A yields exactly that working set
and an empty delta: nothing is appended, so no reordering and no duplicate
keys can be introduced by the second merge. -/
theorem merge_idempotent (S A : List Stock) :
    mergeStocks (mergeStocks S A).1 A = ((mergeStocks S A).1, []) := by
  have hfil :
      A.filter (fun n => !((mergeStocks S A).1.any (fun e => e.symbol == n.symbol))) = [] := by
    rw [List.filter_eq_nil_iff]
    intro a ha
    simp only [Bool.not_eq_true', Bool.not_eq_false]
    rw [List.any_eq_true]
    by_cases hS : S.any (fun e => e.symbol == a.symbol)
    · obtain ⟨e, he, hesym⟩ := List.any_eq_true.mp hS
      exact ⟨e, List.mem_append_left _ he, hesym⟩
    · refine ⟨a, List.mem_append_right _ ?_, by simp⟩
      refine List.mem_filter.mpr ⟨ha, ?_⟩
      simp only [Bool.not_eq_true']
      exact Bool.of_not_eq_true hS
  simp only [mergeStocks] at hfil ⊢
  rw [hfil]
  simp

/-- Claim C8, counterexample: on a session store with every key present,
the explicit refresh leaves the snapshot write-timestamp key in place, so
the claim that the write-timestamp is cleared together with the other
cache keys is false. -/
theorem refresh_keeps_cache_time :
    (refreshMarket ⟨some ⟨[recAAA10]⟩, some 42, some "insight", some "opps",
        some [recAAA10]⟩).cacheTime = some 42
    ∧ (refreshMarket ⟨some ⟨[recAAA10]⟩, some 42, some "insight", some "opps",
        some [recAAA10]⟩).cacheTime ≠ none := by
  constructor
  · rfl
  · decide

/-- Claim C8, amended: the explicit refresh clears the market-data snapshot
blob, the AI-insight text and the opportunities list together; it leaves
the snapshot write-timestamp untouched (stale behaviour is still correct
because a read requires the blob too), and it never clears the
user-owned portfolio list. -/
theorem refresh_clears_data_keys_only (st : SessionStore) :
    (refreshMarket st).marketData = none
    ∧ (refreshMarket st).aiInsight = none
    ∧ (refreshMarket st).opportunities = none
    ∧ (refreshMarket st).cacheTime = st.cacheTime
    ∧ (refreshMarket st).portfolio = st.portfolio :=
  ⟨rfl, rfl, rfl, rfl, rfl⟩

/-- One merge step preserves distinctness of the symbol keys, provided the
incoming snapshot has distinct symbols: kept incoming records have symbols
disjoint from the working set by the filter predicate. -/
theorem mergeStocks_nodup (cur inc : List Stock)
    (hc : (cur.map Stock.symbol).Nodup) (hi : (inc.map Stock.symbol).Nodup) :
    (((mergeStocks cur inc).1).map Stock.symbol).Nodup := by
  simp only [mergeStocks]
  rw [List.map_append, List.nodup_append]
  refine ⟨hc, ?_, ?_⟩
  · exact ((List.filter_sublist inc).map Stock.symbol).nodup hi
  · intro a ha hb
    obtain ⟨x, hxmem, hxsym⟩ := List.mem_map.mp hb
    have hkeep := List.of_mem_filter hxmem
    simp only [Bool.not_eq_true', List.any_eq_false] at hkeep
    obtain ⟨e, hemem, hesym⟩ := List.mem_map.mp ha
    have := hkeep e hemem
    simp only [beq_eq_false_iff_ne, ne_eq] at this
    exact absurd (by simp [hesym.trans hxsym.symm]) this

/-- Claim C3: starting from the empty working set, any finite sequence of
merges of snapshots whose symbols are distinct within each snapshot yields
a working set in which each symbol key appears at most once. -/
theorem mergeAll_symbols_nodup (snaps : List (List Stock))
    (h : ∀ s ∈ snaps, (s.map Stock.symbol).Nodup) :
    ((mergeAll snaps).map Stock.symbol).Nodup := by
  have general : ∀ (l : List (List Stock)) (cur : List Stock),
      (cur.map Stock.symbol).Nodup → (∀ s ∈ l, (s.map Stock.symbol).Nodup) →
      (((l.foldl (fun ws s => (mergeStocks ws s).1) cur)).map Stock.symbol).Nodup := by
    intro l
    induction l with
    | nil => intro cur hcur _; simpa using hcur
    | cons s rest ih =>
      intro cur hcur hall
      simp only [List.foldl_cons]
      exact ih _ (mergeStocks_nodup cur s hcur (hall s (List.mem_cons_self s rest)))
        (fun t ht => hall t (List.mem_cons_of_mem s ht))
  exact general snaps [] (by simp) h

/-- Claim C3, witness: two overlapping snapshots with internally distinct
symbols merge into a working set with distinct symbol keys. -/
theorem mergeAll_symbols_nodup_witness :
    ((mergeAll [[recAAA10], [recAAA11, recBBB5]]).map Stock.symbol).Nodup :=
  mergeAll_symbols_nodup [[recAAA10], [recAAA11, recBBB5]] (by decide)

/-- Pointwise content of the value filter with every input empty: all
bounds at their defaults still impose price not below 0, rsi (when
present) within [0, 100] because the rsiMax default is the finite 100,
and volume (when present) not below 0. -/
theorem passesValues_empty (s : Stock) :
    passesValues emptyInputs s = passesDefaults s := by
  rcases s with ⟨sym, nm, p, ch, rsi, vol⟩
  rcases rsi with _ | r <;> rcases vol with _ | v <;>
    simp only [passesValues, passesDefaults, emptyInputs, jsOr, jsOrInf, ltBound,
      gtBound] <;>
    rw [Bool.eq_iff_iff] <;>
    simp only [Bool.or_false, Bool.and_true, Bool.not_false, Bool.and_eq_true,
      Bool.not_eq_true', Bool.or_eq_false_iff, decide_eq_false_iff_not,
      decide_eq_true_eq, not_lt, gt_iff_lt]

/-- Pointwise content of the value filter with priceMin 10 and priceMax 20
and the other inputs empty: the closed price interval plus the default
checks. -/
theorem passesValues_10_20 (s : Stock) :
    passesValues ⟨some 10, some 20, none, none, none, none, none⟩ s
      = (passesDefaults s && (decide ((10:ℚ) ≤ s.price) && decide (s.price ≤ 20))) := by
  rcases s with ⟨sym, nm, p, ch, rsi, vol⟩
  have h0 : (10:ℚ) ≤ p → (0:ℚ) ≤ p := fun h => by linarith
  rcases rsi with _ | r <;> rcases vol with _ | v <;>
    simp only [passesValues, passesDefaults, jsOr, jsOrInf, ltBound, gtBound] <;>
    norm_num <;>
    rw [Bool.eq_iff_iff] <;>
    simp only [Bool.or_false, Bool.and_true, Bool.not_false, Bool.and_eq_true,
      Bool.not_eq_true', Bool.or_eq_false_iff, decide_eq_false_iff_not,
      decide_eq_true_eq, not_lt, gt_iff_lt] <;>
    tauto

/-- The domestic branch of applyFilters is the one-pass filter by the
conjunction of the domestic region predicate and the value predicate. -/
theorem applyFilters_false_eq (stocks : List Stock) (inp : FilterInputs) :
    applyFilters stocks false inp
      = stocks.filter (fun s => !(isStockGlobal s) && passesValues inp s) := by
  simp only [applyFilters, Bool.false_eq_true, if_false]
  rw [List.filter_filter]
  exact List.filter_congr (fun x _ => by simp [regionPass, Bool.and_comm])

/-- The global branch of applyFilters sorts the one-pass filtered list by
symbol. -/
theorem applyFilters_true_eq (stocks : List Stock) (inp : FilterInputs) :
    applyFilters stocks true inp
      = List.insertionSort (fun a b => a.symbol ≤ b.symbol)
          (stocks.filter (fun s => isStockGlobal s && passesValues inp s)) := by
  simp only [applyFilters, if_true]
  rw [List.filter_filter]
  congr 1
  exact List.filter_congr (fun x _ => by simp [regionPass, Bool.and_comm])

/-- A domestic record with price inside [10, 20] but rsi above the default
rsiMax of 100: used against claim C6. -/
def recHotRSI : Stock := ⟨"HOT.IS", "Hot Corp", 15, 0, some 150, none⟩

/-- A domestic record with no volume indicator: used against claim C7. -/
def recNoVol : Stock := ⟨"ABC.IS", "Abc Corp", 15, 0, none, none⟩

/-- Claim C6, counterexample: on the set holding only recHotRSI (domestic,
price 15, rsi 150), the filter with priceMin 10 and priceMax 20 returns
the empty list, while the set of domestic records with price in [10, 20]
is the whole singleton: the empty ranges default rsiMax is the finite 100,
not unbounded, so the output is not exactly the region-and-price subset. -/
theorem filter_excludes_high_rsi_by_default :
    applyFilters [recHotRSI] false ⟨some 10, some 20, none, none, none, none, none⟩ = []
    ∧ [recHotRSI].filter (fun s =>
        !(isStockGlobal s) && decide ((10:ℚ) ≤ s.price) && decide (s.price ≤ 20))
      = [recHotRSI] := by
  constructor
  · decide
  · decide

/-- Claim C6, amended: the filter with priceMin 10 and priceMax 20 returns,
for either requested region, exactly the records of that region whose
price lies in the closed interval [10, 20] and which also pass the
always-on default bounds (price not below 0, rsi within [0, 100] when
present, volume not below 0 when present — the rsiMax default is the
finite 100, not unbounded); an empty ranges configuration returns the
region partition restricted to the same default bounds; the domestic
partition preserves arrival order (the filter is order-preserving) and
the global partition is sorted ascending by symbol, lexicographically,
both with empty ranges and with the price bounds set. -/
theorem applyFilters_characterization (stocks : List Stock) :
    (applyFilters stocks false ⟨some 10, some 20, none, none, none, none, none⟩
        = stocks.filter (fun s =>
            !(isStockGlobal s) && passesDefaults s
              && decide ((10:ℚ) ≤ s.price) && decide (s.price ≤ 20)))
    ∧ (applyFilters stocks false emptyInputs
        = stocks.filter (fun s => !(isStockGlobal s) && passesDefaults s))
    ∧ (applyFilters stocks true emptyInputs).Perm
        (stocks.filter (fun s => isStockGlobal s && passesDefaults s))
    ∧ List.Sorted (fun a b : Stock => a.symbol ≤ b.symbol)
        (applyFilters stocks true emptyInputs)
    ∧ (applyFilters stocks true ⟨some 10, some 20, none, none, none, none, none⟩).Perm
        (stocks.filter (fun s =>
            isStockGlobal s && passesDefaults s
              && decide ((10:ℚ) ≤ s.price) && decide (s.price ≤ 20)))
    ∧ List.Sorted (fun a b : Stock => a.symbol ≤ b.symbol)
        (applyFilters stocks true ⟨some 10, some 20, none, none, none, none, none⟩) := by
  have h1 : IsTotal Stock (fun a b => a.symbol ≤ b.symbol) := ⟨fun a b => le_total _ _⟩
  have h2 : IsTrans Stock (fun a b => a.symbol ≤ b.symbol) := ⟨fun a b c => le_trans⟩
  have hglobal : stocks.filter (fun s => isStockGlobal s && passesValues emptyInputs s)
      = stocks.filter (fun s => isStockGlobal s && passesDefaults s) :=
    List.filter_congr (fun x _ => by rw [passesValues_empty])
  have hglobal20 : stocks.filter (fun s =>
        isStockGlobal s
          && passesValues ⟨some 10, some 20, none, none, none, none, none⟩ s)
      = stocks.filter (fun s =>
          isStockGlobal s && passesDefaults s
            && decide ((10:ℚ) ≤ s.price) && decide (s.price ≤ 20)) := by
    refine List.filter_congr (fun x _ => ?_)
    rw [passesValues_10_20]
    cases isStockGlobal x <;> cases passesDefaults x <;>
      cases hd1 : decide ((10:ℚ) ≤ x.price) <;> cases hd2 : decide (x.price ≤ 20) <;>
      simp [hd1, hd2]
  refine ⟨?_, ?_, ?_, ?_, ?_, ?_⟩
  · rw [applyFilters_false_eq]
    refine List.filter_congr (fun x _ => ?_)
    rw [passesValues_10_20]
    cases isStockGlobal x <;> cases passesDefaults x <;>
      cases hd1 : decide ((10:ℚ) ≤ x.price) <;> cases hd2 : decide (x.price ≤ 20) <;>
      simp [hd1, hd2]
  · rw [applyFilters_false_eq]
    exact List.filter_congr (fun x _ => by rw [passesValues_empty])
  · rw [applyFilters_true_eq, hglobal]
    exact List.perm_insertionSort _ _
  · rw [applyFilters_true_eq]
    exact List.sorted_insertionSort _ _
  · rw [applyFilters_true_eq, hglobal20]
    exact List.perm_insertionSort _ _
  · rw [applyFilters_true_eq]
    exact List.sorted_insertionSort _ _

/-- Claim C7, counterexample: a domestic record with no volume indicator is
INCLUDED by the filter although a volume-min of 50 is set: the JavaScript
comparison undefined < 50 is false, so the record never fails the volume
check, contradicting the claim that a set volume-min excludes it. -/
theorem filter_includes_absent_volume_with_bound :
    applyFilters [recNoVol] false ⟨none, none, none, none, none, none, some 50⟩
      = [recNoVol] := by
  decide

/-- Claim C7, amended: a record whose volume indicator is absent passes the
volume check no matter what the volume-min input is: the value filter
gives the same verdict with any volume-min as with an unset one, so an
absent indicator never causes exclusion by the volume bound (inclusion is
decided by the remaining checks alone). -/
theorem absent_volume_ignores_volMin (s : Stock) (inp : FilterInputs)
    (q : Option ℚ) (h : s.volume = none) :
    passesValues { inp with volMin := q } s
      = passesValues { inp with volMin := none } s := by
  simp only [passesValues, h]

/-- Claim C7, witness for the amended theorem: the no-volume record gets
the same verdict under volume-min 50 and under no volume-min. -/
theorem absent_volume_ignores_volMin_witness :
    passesValues { emptyInputs with volMin := some 50 } recNoVol
      = passesValues { emptyInputs with volMin := none } recNoVol :=
  absent_volume_ignores_volMin recNoVol emptyInputs (some 50) rfl

/-- Helper: removing the element at the old length from a list extended by
one trailing element gives back the original list. -/
theorem eraseIdx_append_singleton {α : Type} (l : List α) (x : α) :
    (l ++ [x]).eraseIdx l.length = l := by
  induction l with
  | nil => rfl
  | cons a t ih => simpa [List.eraseIdx] using ih

/-- Helper: when a list holds at most one element satisfying p and findIdx?
locates one, erasing that index leaves no element satisfying p. -/
theorem countP_eraseIdx_of_findIdx? (p : Stock → Bool) (l : List Stock) (i : ℕ)
    (hidx : l.findIdx? p = some i) (hcount : l.countP p ≤ 1) :
    (l.eraseIdx i).countP p = 0 := by
  obtain ⟨hlen, hpi, _⟩ := List.findIdx?_eq_some_iff_getElem.mp hidx
  have hdecomp : l = l.take i ++ l[i] :: l.drop (i + 1) := by
    rw [List.getElem_cons_drop]
    exact (List.take_append_drop i l).symm
  have hcnt2 : l.countP p = (l.take i).countP p + ((l.drop (i + 1)).countP p + 1) := by
    conv_lhs => rw [hdecomp]
    rw [List.countP_append, List.countP_cons, if_pos hpi]
  have herase : (l.eraseIdx i).countP p
      = (l.take i).countP p + (l.drop (i + 1)).countP p := by
    rw [List.eraseIdx_eq_take_drop_succ, List.countP_append]
  omega

/-- Claim C9: on any portfolio in which the key occurs at most once (the
invariant maintained by the store itself, whose entries are keyed by
symbol), toggling a key that resolves against the working set twice
restores the original membership state of that key; and when resolution
fails (the symbol is not in the working set) the toggle is a no-op. -/
theorem toggle_twice_restores_membership (allStocks : List Stock) (sym : String)
    (portfolio : List Stock) :
    (∀ stock, allStocks.find? (fun s => s.symbol == sym) = some stock →
      portfolio.countP (fun s => s.symbol == sym) ≤ 1 →
      (togglePortfolioItem allStocks (some sym)
          (togglePortfolioItem allStocks (some sym) portfolio)).any
          (fun s => s.symbol == sym)
        = portfolio.any (fun s => s.symbol == sym))
    ∧ (allStocks.find? (fun s => s.symbol == sym) = none →
        togglePortfolioItem allStocks (some sym) portfolio = portfolio) := by
  constructor
  · intro stock hres hcount
    have hpstock := List.find?_some hres
    rcases hidx : portfolio.findIdx? (fun s => s.symbol == sym) with _ | i
    · have ht1 : togglePortfolioItem allStocks (some sym) portfolio
          = portfolio ++ [stock] := by
        simp [togglePortfolioItem, hres, hidx]
      have hidx2 : (portfolio ++ [stock]).findIdx? (fun s => s.symbol == sym)
          = some portfolio.length := by
        rw [List.findIdx?_append, hidx]
        simp [List.findIdx?_cons, hpstock]
      rw [ht1]
      simp only [togglePortfolioItem, hres, hidx2]
      rw [eraseIdx_append_singleton]
    · have ht1 : togglePortfolioItem allStocks (some sym) portfolio
          = portfolio.eraseIdx i := by
        simp [togglePortfolioItem, hres, hidx]
      have hzero : ((portfolio.eraseIdx i).countP (fun s => s.symbol == sym)) = 0 :=
        countP_eraseIdx_of_findIdx? _ portfolio i hidx hcount
      have hidx2 : (portfolio.eraseIdx i).findIdx? (fun s => s.symbol == sym) = none := by
        rw [List.findIdx?_eq_none_iff]
        exact fun x hx => by
          have := List.countP_eq_zero.mp hzero x hx
          simpa using this
      rw [ht1]
      simp only [togglePortfolioItem, hres, hidx2]
      rw [List.any_append]
      have hmem : portfolio.any (fun s => s.symbol == sym) = true := by
        obtain ⟨hlen, hpi, _⟩ := List.findIdx?_eq_some_iff_getElem.mp hidx
        exact List.any_eq_true.mpr ⟨portfolio[i], List.getElem_mem hlen, hpi⟩
      simp [hmem, hpstock]
  · intro hres
    simp [togglePortfolioItem, hres]

/-- Claim C9, witness: double toggle of AAA on the empty portfolio, with
AAA resolvable, leaves AAA absent again; and toggling against an empty
working set is a no-op. -/
theorem toggle_twice_restores_membership_witness :
    (togglePortfolioItem [recAAA10] (some "AAA")
        (togglePortfolioItem [recAAA10] (some "AAA") [])).any
        (fun s => s.symbol == "AAA")
      = List.any ([] : List Stock) (fun s => s.symbol == "AAA")
    ∧ togglePortfolioItem [] (some "AAA") [recAAA10] = [recAAA10] :=
  ⟨(toggle_twice_restores_membership [recAAA10] "AAA" []).1 recAAA10
      (by decide) (by decide),
   (toggle_twice_restores_membership [] "AAA" [recAAA10]).2 (by decide)⟩

/-- Claim C10: a price-max input whose parsed value is 0 (the text "0") is
falsy, so the default operator replaces it by Infinity: the filter
behaves exactly as with an unset price-max, for every record set, region
and combination of the other inputs; in particular no record is excluded
for having a price above 0. -/
theorem priceMax_zero_behaves_as_unset (stocks : List Stock) (g : Bool)
    (inp : FilterInputs) :
    applyFilters stocks g { inp with priceMax := some 0 }
      = applyFilters stocks g { inp with priceMax := none } := by
  have hpv : passesValues { inp with priceMax := some 0 }
      = passesValues { inp with priceMax := none } := by
    funext s
    simp only [passesValues, jsOrInf]
    norm_num
  simp only [applyFilters, hpv]
